import Mathlib

/-!
Verification of the M2 quantizer / M3 GIF89a encoder core of the
rgba-gif89a-camera repository.

The Rust functions under `rust-core/crates/m3-gif/src/lib.rs` (struct
`Gif89aEncoder`: `encode_from_cube_data`, `write_gif89a_header`,
`write_global_color_table`, `write_netscape_loop`, `write_image_descriptor`,
`write_lzw_compressed_data`), `rust-core/crates/ffi/src/lib.rs`
(`validate_gif_bytes`) and `rust-core/crates/m2-quant/src/lib.rs`
(`build_histogram`, `histogram_similarity`, `calculate_palette_stability`,
`map_frame_to_palette`) are embedded shallowly below.

Bytes are modelled as natural numbers in `0..255` (every byte the embedded
code produces is in that range by construction).  `f32` quantities that the
embedded fragments compute (histogram similarities, mean distances) are
modelled as exact rationals; the embedded fragments only divide, compare and
sum such quantities, so the algebraic structure of the computation is
preserved exactly.  The sampling / k-means part of the quantizer draws from
an OS entropy source (`rand::thread_rng`) and is not embedded; the functions
below that consume its output are parametrised over the colour conversion
instead.
-/

set_option maxRecDepth 10000

namespace RgbaGif

/-- Little-endian encoding of a 16-bit value, as `u16::to_le_bytes`. -/
def u16le (n : ℕ) : List ℕ := [n % 256, n / 256 % 256]

/-- The error type of the pipeline (`common_types::GifPipeError`).  Only the
variants constructed by the embedded functions are carried. -/
inductive GifPipeError where
  | validationFailed (message : String)
  | invalidFrameData (message : String)
deriving DecidableEq, Repr

/-- Rust `common_types::QuantizedCubeData`: the quantized cube handed from the
quantizer to the encoder. -/
structure QuantizedCubeData where
  width : ℕ
  height : ℕ
  global_palette_rgb : List ℕ
  indexed_frames : List (List ℕ)
  delays_cs : List ℕ
  palette_stability : ℚ
  mean_delta_e : ℚ
  p95_delta_e : ℚ
  attention_maps : Option (List (List ℚ))

/-- Fuel-indexed splitting loop; the fuel bounds the number of sub-blocks and
is never exhausted when it starts at the byte count (each block carries at
least one byte). -/
def subBlocksGo : ℕ → List ℕ → List ℕ
  | _, [] => []
  | 0, _ => []
  | fuel + 1, l =>
    min l.length 255 ::
      (l.take (min l.length 255) ++ subBlocksGo fuel (l.drop (min l.length 255)))

/-- Splitting of a byte vector into GIF data sub-blocks, each preceded by its
length byte (at most 255), as the `while pos < compressed.len()` loop of
`write_lzw_compressed_data`. -/
def subBlocks (l : List ℕ) : List ℕ := subBlocksGo l.length l

/-- Rust `Gif89aEncoder::write_gif89a_header`: GIF89a signature, logical screen
descriptor with packed byte `0xF7`, background index 0, aspect ratio 0. -/
def write_gif89a_header (width height : ℕ) : List ℕ :=
  [0x47, 0x49, 0x46, 0x38, 0x39, 0x61] ++ u16le width ++ u16le height ++ [0xF7, 0x00, 0x00]

/-- Rust `Gif89aEncoder::write_global_color_table`: the palette bytes, padded with
zero bytes up to 256 RGB entries. -/
def write_global_color_table (palette_rgb : List ℕ) : List ℕ :=
  palette_rgb ++
    (if palette_rgb.length / 3 < 256 then List.replicate ((256 - palette_rgb.length / 3) * 3) 0
     else [])

/-- The 11 ASCII bytes of `NETSCAPE2.0`. -/
def netscape_pattern : List ℕ := [78, 69, 84, 83, 67, 65, 80, 69, 50, 46, 48]

/-- Rust `Gif89aEncoder::write_netscape_loop`: the application extension block for
infinite looping. -/
def write_netscape_loop : List ℕ :=
  [0x21, 0xFF, 0x0B] ++ netscape_pattern ++ [0x03, 0x01] ++ u16le 0 ++ [0x00]

/-- Rust `Gif89aEncoder::write_image_descriptor`. -/
def write_image_descriptor (left top width height : ℕ) : List ℕ :=
  [0x2C] ++ u16le left ++ u16le top ++ u16le width ++ u16le height ++ [0x00]

/-- Rust `Gif89aEncoder::write_lzw_compressed_data`: minimum code size byte 8, then
the bytes of the clear code `256u16`, the raw frame indices, and the bytes of
the end code `257u16`, split into sub-blocks and terminated by `0x00`.
(The function's name notwithstanding, no LZW bit-packing is performed; the
body writes the index bytes verbatim between the two little-endian code
words.) -/
def write_lzw_compressed_data (frame_indices : List ℕ) : List ℕ :=
  [8] ++ subBlocks (u16le 256 ++ frame_indices ++ u16le 257) ++ [0x00]

/-- The per-frame loop body of `encode_from_cube_data`: image descriptor at
(0,0) size 81x81, then the image data section, for each frame in order. -/
def frame_blocks (frames : List (List ℕ)) : List ℕ :=
  (frames.map (fun f => write_image_descriptor 0 0 81 81 ++ write_lzw_compressed_data f)).flatten

/-- The byte stream built by the success path of `encode_from_cube_data`. -/
def gifStream (cube : QuantizedCubeData) (loop_forever : Bool) : List ℕ :=
  write_gif89a_header 81 81 ++
  write_global_color_table cube.global_palette_rgb ++
  (if loop_forever then write_netscape_loop else []) ++
  frame_blocks cube.indexed_frames ++ [0x3B]

/-- Rust `Gif89aEncoder::encode_from_cube_data`.  The `fps_cs` argument is ignored
by the source (`_fps_cs`). -/
def encode_from_cube_data (cube : QuantizedCubeData) (fps_cs : ℕ) (loop_forever : Bool) :
    Except GifPipeError (List ℕ) :=
  if cube.indexed_frames.length ≠ 81 then
    .error (.validationFailed ("Expected 81 frames, got " ++ toString cube.indexed_frames.length))
  else if cube.global_palette_rgb.length % 3 ≠ 0 ∨ cube.global_palette_rgb.length > 768 then
    .error (.validationFailed ("Invalid palette size"))
  else
    .ok (gifStream cube loop_forever)

/-- Rust `ffi::GifValidation`. -/
structure GifValidation where
  is_valid : Bool
  has_gif89a_header : Bool
  has_netscape_loop : Bool
  has_trailer : Bool
  frame_count : ℕ
  errors : List String
deriving DecidableEq, Repr

/-- The check `gif_bytes.windows(pat.len()).any(|w| w == pat)` of the validator: is some
contiguous window of `l` equal to `pat`?  (Only used with the 11-byte
`netscape_pattern`.) -/
def hasWindow (pat : List ℕ) : List ℕ → Bool
  | [] => false
  | x :: t => decide ((x :: t).take pat.length = pat) || hasWindow pat t

/-- Rust `ffi::validate_gif_bytes`.  The `u32` frame counter is modelled as `ℕ`
(the counter cannot reach `2^32` on byte vectors this code handles). -/
def validate_gif_bytes (gif_bytes : List ℕ) : GifValidation :=
  if gif_bytes.length < 13 then
    { is_valid := false, has_gif89a_header := false, has_netscape_loop := false,
      has_trailer := false, frame_count := 0, errors := [("GIF too small (< 13 bytes)")] }
  else
    let has_gif89a_header := decide (gif_bytes.take 6 = [0x47, 0x49, 0x46, 0x38, 0x39, 0x61])
    let has_netscape_loop := hasWindow netscape_pattern gif_bytes
    let frame_count := gif_bytes.count 0x2C
    let has_trailer := decide (gif_bytes.getLast? = some 0x3B)
    { is_valid := has_gif89a_header && has_netscape_loop && has_trailer &&
        decide (frame_count = 81),
      has_gif89a_header := has_gif89a_header,
      has_netscape_loop := has_netscape_loop,
      has_trailer := has_trailer,
      frame_count := frame_count,
      errors := (if has_gif89a_header then [] else [("Missing GIF89a header")]) ++
        (if has_trailer then [] else [("Missing GIF trailer (0x3B)")]) }

/-- Rust `OklabQuantizer::build_histogram`: a 256-bin histogram of an index plane,
built by in-place increments. -/
def build_histogram (frame_indices : List ℕ) : List ℕ :=
  frame_indices.foldl (fun histogram index => histogram.set index (histogram.getD index 0 + 1))
    (List.replicate 256 0)

/-- Rust `OklabQuantizer::histogram_similarity`: intersection over max total.  The
`f32` value is modelled as an exact rational. -/
def histogram_similarity (hist1 hist2 : List ℕ) : ℚ :=
  if hist1.sum = 0 ∨ hist2.sum = 0 then 0
  else (((((hist1.zip hist2).map (fun p => min p.1 p.2)).sum : ℕ)) : ℚ) /
    ((max hist1.sum hist2.sum : ℕ) : ℚ)

/-- Rust `OklabQuantizer::calculate_palette_stability`: mean similarity over the
consecutive index-plane pairs.  (For fewer than two frames the Rust code
divides by zero in `f32`, producing NaN; that case is outside every use and
is mapped to `0` by rational division.) -/
def calculate_palette_stability (indexed_frames : List (List ℕ)) : ℚ :=
  let stability_scores := (indexed_frames.zip indexed_frames.tail).map
    (fun p => histogram_similarity (build_histogram p.1) (build_histogram p.2))
  stability_scores.sum / (stability_scores.length : ℚ)

/-- The 256-bin histogram written as per-value occurrence counts (the form the
spec describes the histogram in). -/
def histogram256 (p : List ℕ) : List ℕ := (List.range 256).map (fun k => p.count k)

/-- Modelled from the spec: the histogram-intersection similarity
`sum(min(h_i[k], h_j[k])) / max(sum(h_i), sum(h_j))` of two index planes. -/
def histogram_intersection_spec (p1 p2 : List ℕ) : ℚ :=
  ((((((histogram256 p1).zip (histogram256 p2)).map (fun q => min q.1 q.2)).sum : ℕ)) : ℚ) /
    ((max (histogram256 p1).sum (histogram256 p2).sum : ℕ) : ℚ)

/-- Index of the first minimum of a distance list, as Rust
`Iterator::min_by` over `enumerate()` (first minimal element wins). -/
def argminAux : List ℚ → ℕ → ℕ → ℚ → ℕ
  | [], _, best_idx, _ => best_idx
  | d :: rest, i, best_idx, best_val =>
    if d < best_val then argminAux rest (i + 1) i d
    else argminAux rest (i + 1) best_idx best_val

/-- First-minimum index of a list of distances (0 on the empty list, which the
source never reaches: `min_by(..).unwrap()` would panic there). -/
def argminFirst : List ℚ → ℕ
  | [] => 0
  | d :: rest => argminAux rest 1 0 d

/-- The RGB pixels of a flat frame, as read by the
`for i in 0..pixel_count` loop of `map_frame_to_palette` (the
`rgb_idx + 2 < frame_rgb.len()` guard included). -/
def pixels_of (frame_rgb : List ℕ) : List (ℕ × ℕ × ℕ) :=
  (List.range (frame_rgb.length / 3)).filterMap (fun i =>
    if 3 * i + 2 < frame_rgb.length then
      some (frame_rgb.getD (3 * i) 0, frame_rgb.getD (3 * i + 1) 0, frame_rgb.getD (3 * i + 2) 0)
    else none)

/-- The index plane produced by `OklabQuantizer::map_frame_to_palette`: for
each pixel, the first-minimum palette entry by distance, truncated to `u8`
(`best_idx as u8`, modelled as `% 256`).  The colour conversion `toLab` and
distance `dE` (Oklab conversion and ΔE in the source, `f32`) are parameters:
the index arithmetic is independent of them. -/
def mf_indices {α : Type} (toLab : ℕ × ℕ × ℕ → α) (dE : α → α → ℚ)
    (frame_rgb : List ℕ) (palette : List (ℕ × ℕ × ℕ)) : List ℕ :=
  let palette_oklab := palette.map toLab
  (pixels_of frame_rgb).map (fun px =>
    argminFirst (palette_oklab.map (fun c => dE (toLab px) c)) % 256)

/-- The mean per-pixel error accumulated by `map_frame_to_palette`. -/
def mf_error {α : Type} (toLab : ℕ × ℕ × ℕ → α) (dE : α → α → ℚ)
    (frame_rgb : List ℕ) (palette : List (ℕ × ℕ × ℕ)) : ℚ :=
  let palette_oklab := palette.map toLab
  (((pixels_of frame_rgb).map (fun px =>
    let ds := palette_oklab.map (fun c => dE (toLab px) c)
    ds.getD (argminFirst ds) 0)).sum) / ((frame_rgb.length / 3 : ℕ) : ℚ)

/-- Rust `OklabQuantizer::map_frame_to_palette`. -/
def map_frame_to_palette {α : Type} (toLab : ℕ × ℕ × ℕ → α) (dE : α → α → ℚ)
    (frame_rgb : List ℕ) (palette : List (ℕ × ℕ × ℕ)) :
    Except GifPipeError (List ℕ × ℚ) :=
  if frame_rgb.length % 3 ≠ 0 then
    .error (.invalidFrameData ("RGB frame length not divisible by 3"))
  else
    .ok (mf_indices toLab dE frame_rgb palette, mf_error toLab dE frame_rgb palette)

/-- Bit `n` of a byte stream, LSB-first within each byte (GIF LZW bit
order). -/
def getBit (bs : List ℕ) (n : ℕ) : ℕ := bs.getD (n / 8) 0 / 2 ^ (n % 8) % 2

/-- Read a `width`-bit code starting at bit position `pos`. -/
def readCode (bs : List ℕ) (pos width : ℕ) : ℕ :=
  (List.range width).foldl (fun acc i => acc + getBit bs (pos + i) * 2 ^ i) 0

/-- Dictionary lookup for a decoder with minimum code size 8: codes below 256
are literals, codes from 258 index the grown entries. -/
def lzwEntry (extras : List (List ℕ)) (code : ℕ) : List ℕ :=
  if code < 256 then [code] else extras.getD (code - 258) []

/-- Modelled from the spec: the decoding loop of the standard variable-width
GIF LZW scheme with minimum code size 8 — clear code 256, end-of-information
257, initial code width 9 growing to at most 12 as the dictionary grows,
dictionary reset on clear, dictionary capped at 4096 entries.  `nbits` is the
total bit count of the stream; the remaining parameters are fuel, bit
position, code width, grown dictionary entries, previous string and the
output accumulator. -/
def lzwDecodeLoop (bs : List ℕ) (nbits : ℕ) :
    ℕ → ℕ → ℕ → List (List ℕ) → Option (List ℕ) → List ℕ → Except String (List ℕ)
  | 0, _, _, _, _, _ => .error ("fuel exhausted")
  | fuel + 1, pos, width, extras, prev, out =>
    if nbits < pos + width then .error ("ran out of input bits")
    else
      let code := readCode bs pos width
      if code = 256 then
        lzwDecodeLoop bs nbits fuel (pos + width) 9 [] none out
      else if code = 257 then
        .ok out
      else
        match prev with
        | none =>
          if code < 256 then
            lzwDecodeLoop bs nbits fuel (pos + width) width extras (some [code]) (out ++ [code])
          else .error ("first code after a clear code is not a literal")
        | some p =>
          if code < 258 + extras.length then
            let entry := lzwEntry extras code
            let extras2 :=
              if 258 + extras.length < 4096 then extras ++ [p ++ entry.take 1] else extras
            let width2 := if 258 + extras2.length = 2 ^ width ∧ width < 12 then width + 1
              else width
            lzwDecodeLoop bs nbits fuel (pos + width) width2 extras2 (some entry) (out ++ entry)
          else if code = 258 + extras.length then
            let entry := p ++ p.take 1
            let extras2 := if 258 + extras.length < 4096 then extras ++ [entry] else extras
            let width2 := if 258 + extras2.length = 2 ^ width ∧ width < 12 then width + 1
              else width
            lzwDecodeLoop bs nbits fuel (pos + width) width2 extras2 (some entry) (out ++ entry)
          else .error ("code beyond the dictionary")

/-- Modelled from the spec: standard GIF LZW decoding of an unpacked code
stream, minimum code size 8.  (`lengthTR` is the tail-recursive length, equal
to `List.length`.) -/
def lzw_decode_spec (bs : List ℕ) : Except String (List ℕ) :=
  lzwDecodeLoop bs (8 * bs.lengthTR) (bs.lengthTR + 1) 0 9 [] none []

/-- Fuel-indexed sub-block reader; the fuel bounds the number of blocks. -/
def unpackGo : ℕ → List ℕ → Option (List ℕ)
  | _, [] => none
  | 0, _ => none
  | fuel + 1, n :: rest =>
    if n = 0 then some []
    else if rest.length < n then none
    else
      match unpackGo fuel (rest.drop n) with
      | none => none
      | some tail => some (rest.take n ++ tail)

/-- Reassembly of a sub-block sequence (length byte, data, ... , `0x00`
terminator) into the contained byte stream. -/
def unpackSubBlocks (l : List ℕ) : Option (List ℕ) := unpackGo l.length l

/-- A cube with the given palette and frames; the remaining fields are
irrelevant to the encoder. -/
def mkCube (pal : List ℕ) (frames : List (List ℕ)) : QuantizedCubeData :=
  { width := 81, height := 81, global_palette_rgb := pal, indexed_frames := frames,
    delays_cs := List.replicate 81 4, palette_stability := 0, mean_delta_e := 0,
    p95_delta_e := 0, attention_maps := none }

/-- 81 empty frames, 1-entry palette: accepted by the encoder. -/
def cubeC2 : QuantizedCubeData := mkCube [1, 1, 1] (List.replicate 81 [])

/-- 81 frames, 1-entry palette, frame 0 holds the out-of-range index 5. -/
def cubeC3 : QuantizedCubeData := mkCube [0, 0, 0] ([5] :: List.replicate 80 [])

/-- 81 empty frames and an empty palette. -/
def cubeC4 : QuantizedCubeData := mkCube [] (List.replicate 81 [])

/-- 81 empty frames, 1-entry zero palette. -/
def cubeC5 : QuantizedCubeData := mkCube [0, 0, 0] (List.replicate 81 [])

/-- 81 empty frames and a palette whose first 11 bytes spell `NETSCAPE2.0`. -/
def cubeC6 : QuantizedCubeData :=
  mkCube [78, 69, 84, 83, 67, 65, 80, 69, 50, 46, 48, 0] (List.replicate 81 [])

/-- 81 all-zero frames of 6561 pixels, 1-entry zero palette. -/
def cubeW2 : QuantizedCubeData := mkCube [0, 0, 0] (List.replicate 81 (List.replicate 6561 0))

/-- 81 frames with indices far beyond the single palette entry. -/
def cubeW3 : QuantizedCubeData := mkCube [10, 20, 30] ([9] :: List.replicate 80 [7])

/-- 81 empty frames and a 769-byte palette. -/
def cubeW4 : QuantizedCubeData := mkCube (List.replicate 769 0) (List.replicate 81 [])

/-- A frame of 6561 copies of index 255. -/
def frame255 : List ℕ := List.replicate 6561 255

/-- The byte payload `write_lzw_compressed_data` packs for `frame255`. -/
def compressed255 : List ℕ := u16le 256 ++ frame255 ++ u16le 257

/-- First cube of the pair exercising the output-independence claim. -/
def cubeA10 : QuantizedCubeData :=
  { width := 81, height := 81, global_palette_rgb := [3, 3, 3],
    indexed_frames := List.replicate 81 [1], delays_cs := List.replicate 81 4,
    palette_stability := 0, mean_delta_e := 0, p95_delta_e := 0, attention_maps := none }

/-- Second cube: same palette and frames, different delays, metrics,
attention maps. -/
def cubeB10 : QuantizedCubeData :=
  { width := 81, height := 81, global_palette_rgb := [3, 3, 3],
    indexed_frames := List.replicate 81 [1], delays_cs := [9],
    palette_stability := 1/2, mean_delta_e := 3, p95_delta_e := 7,
    attention_maps := some [] }

/-- 81 one-pixel index planes. -/
def framesW8 : List (List ℕ) := List.replicate 81 [0]

/-- Toy colour space for instantiating the palette-mapping theorem. -/
def labW9 : ℕ × ℕ × ℕ → ℚ := fun c => (c.1 : ℚ)

/-- Toy distance for instantiating the palette-mapping theorem. -/
def dEW9 : ℚ → ℚ → ℚ := fun a b => |a - b|

/-- Two-entry palette for the palette-mapping witness. -/
def palW9 : List (ℕ × ℕ × ℕ) := [(0, 0, 0), (255, 0, 0)]

/-- Two-pixel frame for the palette-mapping witness. -/
def frameW9 : List ℕ := [10, 20, 30, 200, 1, 2]

/-! ### Sub-block structure lemmas -/

theorem subBlocksGo_not_mem (b : ℕ) :
    ∀ (fuel : ℕ) (l : List ℕ), l.length ≤ fuel → b ∉ l → b ≠ 255 → b ≠ l.length % 255 →
      b ∉ subBlocksGo fuel l := by
  intro fuel
  induction fuel with
  | zero =>
    intro l hl _ _ _
    have hln : l = [] := by
      cases l with
      | nil => rfl
      | cons x t => simp at hl
    subst hln
    simp [subBlocksGo]
  | succ n ih =>
    intro l hl hbl hb255 hmod
    cases l with
    | nil => simp [subBlocksGo]
    | cons x t =>
      simp only [subBlocksGo, List.mem_cons, List.mem_append, not_or]
      refine ⟨?_, ?_, ?_⟩
      · rcases le_or_lt (x :: t).length 255 with hle | hgt
        · rcases lt_or_eq_of_le hle with hlt | heq
          · intro hb
            exact hmod (by rw [hb, min_eq_left hle, Nat.mod_eq_of_lt hlt])
          · intro hb
            exact hb255 (by rw [hb, min_eq_left hle, heq])
        · intro hb
          exact hb255 (by rw [hb, min_eq_right (le_of_lt hgt)])
      · intro hb
        exact hbl (List.take_subset _ _ hb)
      · rcases le_or_lt (x :: t).length 255 with hle | hgt
        · have hdrop : (x :: t).drop (min (x :: t).length 255) = [] := by
            rw [min_eq_left hle]
            simp
          rw [hdrop]
          simp [subBlocksGo]
        · have hmin : min (x :: t).length 255 = 255 := min_eq_right (le_of_lt hgt)
          rw [hmin]
          apply ih
          · simp only [List.length_drop]
            have := hl
            simp only [List.length_cons] at this ⊢
            omega
          · intro hb
            exact hbl (List.drop_subset _ _ hb)
          · exact hb255
          · simp only [List.length_drop]
            intro hb
            apply hmod
            have h1 : ((x :: t).length - 255) % 255 = (x :: t).length % 255 := by
              omega
            rw [hb, h1]

theorem subBlocks_not_mem (b : ℕ) (l : List ℕ) (hbl : b ∉ l) (hb255 : b ≠ 255)
    (hmod : b ≠ l.length % 255) : b ∉ subBlocks l :=
  subBlocksGo_not_mem b l.length l le_rfl hbl hb255 hmod

theorem length_le_subBlocksGo :
    ∀ (fuel : ℕ) (l : List ℕ), l.length ≤ fuel → l.length ≤ (subBlocksGo fuel l).length := by
  intro fuel
  induction fuel with
  | zero =>
    intro l hl
    omega
  | succ n ih =>
    intro l hl
    cases l with
    | nil => simp
    | cons x t =>
      have hrec := ih ((x :: t).drop (min (x :: t).length 255)) (by
        simp only [List.length_drop, List.length_cons] at hl ⊢
        omega)
      simp only [subBlocksGo, List.length_cons, List.length_append, List.length_take,
        List.length_drop] at hrec ⊢
      omega

theorem unpackGo_cons (f n : ℕ) (rest : List ℕ) (hn : n ≠ 0) (hlen : ¬ rest.length < n) :
    unpackGo (f + 1) (n :: rest) =
      (match unpackGo f (rest.drop n) with
       | none => none
       | some tail => some (rest.take n ++ tail)) := by
  simp [unpackGo, hn, hlen]

theorem unpackGo_subBlocksGo :
    ∀ (fuelS : ℕ) (l : List ℕ) (fuelU : ℕ), l.length ≤ fuelS → l.length + 1 ≤ fuelU →
      unpackGo fuelU (subBlocksGo fuelS l ++ [0]) = some l := by
  intro fuelS
  induction fuelS with
  | zero =>
    intro l fuelU hl hu
    have hln : l = [] := by
      cases l with
      | nil => rfl
      | cons x t => simp at hl
    subst hln
    cases fuelU with
    | zero => omega
    | succ f => simp [subBlocksGo, unpackGo]
  | succ n ih =>
    intro l fuelU hl hu
    cases l with
    | nil =>
      cases fuelU with
      | zero => omega
      | succ f => simp [subBlocksGo, unpackGo]
    | cons x t =>
      cases fuelU with
      | zero => omega
      | succ f =>
        have hmin1 : 1 ≤ min (x :: t).length 255 := by
          simp only [List.length_cons]
          omega
        have hminle : min (x :: t).length 255 ≤ (x :: t).length := min_le_left _ _
        have htake : ((x :: t).take (min (x :: t).length 255)).length =
            min (x :: t).length 255 := by
          simp [List.length_take, min_eq_left hminle]
        have hshape : subBlocksGo (n + 1) (x :: t) ++ [0] =
            min (x :: t).length 255 ::
              ((x :: t).take (min (x :: t).length 255) ++
                (subBlocksGo n ((x :: t).drop (min (x :: t).length 255)) ++ [0])) := by
          simp [subBlocksGo, List.cons_append, List.append_assoc]
        rw [hshape]
        rw [unpackGo_cons f (min (x :: t).length 255) _ (by omega)
          (by
            simp only [List.length_append, htake]
            omega)]
        rw [List.drop_left' htake, List.take_left' htake]
        rw [ih ((x :: t).drop (min (x :: t).length 255)) f
          (by
            simp only [List.length_drop, List.length_cons] at hl ⊢
            omega)
          (by
            simp only [List.length_drop, List.length_cons] at hu ⊢
            omega)]
        simp

theorem unpack_subBlocks (l : List ℕ) : unpackSubBlocks (subBlocks l ++ [0]) = some l := by
  have hlen : l.length + 1 ≤ (subBlocks l ++ [0]).length := by
    simp only [List.length_append, List.length_cons, List.length_nil]
    have := length_le_subBlocksGo l.length l le_rfl
    simp only [subBlocks]
    omega
  exact unpackGo_subBlocksGo l.length l (subBlocks l ++ [0]).length le_rfl hlen

/-! ### Window search lemmas -/

theorem hasWindow_of_parts (a b : List ℕ) :
    hasWindow netscape_pattern (a ++ netscape_pattern ++ b) = true := by
  induction a with
  | nil =>
    simp only [List.nil_append]
    rw [show netscape_pattern ++ b = 78 :: ([69, 84, 83, 67, 65, 80, 69, 50, 46, 48] ++ b) by
      simp [netscape_pattern]]
    simp only [hasWindow, Bool.or_eq_true, decide_eq_true_eq]
    left
    rw [show (78 : ℕ) :: ([69, 84, 83, 67, 65, 80, 69, 50, 46, 48] ++ b) =
      netscape_pattern ++ b by simp [netscape_pattern]]
    exact List.take_left' rfl
  | cons x a2 ih =>
    simp only [List.cons_append, hasWindow, Bool.or_eq_true]
    right
    simpa using ih

theorem hasWindow_eq_false (l : List ℕ) (h : 78 ∉ l) :
    hasWindow netscape_pattern l = false := by
  induction l with
  | nil => rfl
  | cons x t ih =>
    have hx : x ≠ 78 := fun hq => h (by simp [hq])
    have ht : (78 : ℕ) ∉ t := fun hq => h (List.mem_cons_of_mem _ hq)
    simp only [hasWindow, ih ht, Bool.or_false, decide_eq_false_iff_not]
    intro hEq
    have : x = 78 := by
      have h11 : (x :: t).take netscape_pattern.length = x :: t.take 10 := by
        simp [netscape_pattern]
      rw [h11] at hEq
      have := congrArg (fun q => q.headI) hEq
      simpa [netscape_pattern] using this
    exact hx this

/-! ### Byte membership in the emitted stream -/

theorem u16le_256 : u16le 256 = [0, 1] := by norm_num [u16le]

theorem u16le_257 : u16le 257 = [1, 1] := by norm_num [u16le]

theorem lzw_section_not_mem (b : ℕ) (f : List ℕ) (hf : b ∉ f) (h255 : b ≠ 255)
    (hmod : b ≠ (f.length + 4) % 255) (h8 : b ≠ 8) (h0 : b ≠ 0) (h1 : b ≠ 1) :
    b ∉ write_lzw_compressed_data f := by
  intro hmem
  simp only [write_lzw_compressed_data, u16le_256, u16le_257, List.mem_append, List.mem_cons,
    List.not_mem_nil, or_false] at hmem
  rcases hmem with (h | h) | h
  · exact h8 h
  · refine subBlocks_not_mem b ([0, 1] ++ f ++ [1, 1]) ?_ h255 ?_ h
    · intro hc
      simp only [List.mem_append, List.mem_cons, List.not_mem_nil, or_false] at hc
      rcases hc with (h | h) | h
      · rcases h with h | h
        · exact h0 h
        · exact h1 h
      · exact hf h
      · rcases h with h | h
        · exact h1 h
        · exact h1 h
    · have hlen : ([0, 1] ++ f ++ [1, 1] : List ℕ).length = f.length + 4 := by
        simp only [List.length_append, List.length_cons, List.length_nil]
        omega
      rw [hlen]
      exact hmod
  · exact h0 h

theorem gct_not_mem (b : ℕ) (pal : List ℕ) (hp : b ∉ pal) (h0 : b ≠ 0) :
    b ∉ write_global_color_table pal := by
  simp only [write_global_color_table, List.mem_append, not_or]
  refine ⟨hp, ?_⟩
  by_cases hc : pal.length / 3 < 256
  · simp [hc, List.mem_replicate, h0]
  · simp [hc]

theorem frame_blocks_not_mem (b : ℕ) (frames : List (List ℕ))
    (hd : b ∉ write_image_descriptor 0 0 81 81)
    (hs : ∀ f ∈ frames, b ∉ write_lzw_compressed_data f) :
    b ∉ frame_blocks frames := by
  induction frames with
  | nil => simp [frame_blocks]
  | cons f fs ih =>
    simp only [frame_blocks, List.map_cons, List.flatten_cons, List.mem_append, not_or]
    refine ⟨⟨hd, hs f (by simp)⟩, ?_⟩
    exact ih (fun g hg => hs g (List.mem_cons_of_mem _ hg))

theorem gifStream_not_mem (cube : QuantizedCubeData) (lf : Bool) (b : ℕ)
    (h1 : b ∉ write_gif89a_header 81 81)
    (h2 : lf = true → b ∉ write_netscape_loop)
    (h3 : b ∉ cube.global_palette_rgb)
    (h4 : b ≠ 0)
    (h5 : b ∉ write_image_descriptor 0 0 81 81)
    (h6 : ∀ f ∈ cube.indexed_frames, b ∉ write_lzw_compressed_data f)
    (h7 : b ≠ 0x3B) :
    b ∉ gifStream cube lf := by
  simp only [gifStream, List.mem_append, List.mem_singleton, not_or]
  refine ⟨⟨⟨⟨h1, gct_not_mem b _ h3 h4⟩, ?_⟩, frame_blocks_not_mem b _ h5 h6⟩, h7⟩
  cases lf with
  | false => simp
  | true => simpa using h2 rfl

/-! ### Stream length and shape -/

theorem gifStream_length (cube : QuantizedCubeData) (lf : Bool) :
    13 ≤ (gifStream cube lf).length := by
  simp only [gifStream, write_gif89a_header, u16le, List.length_append, List.length_cons,
    List.length_nil]
  omega

theorem gifStream_take_6 (cube : QuantizedCubeData) (lf : Bool) :
    (gifStream cube lf).take 6 = [0x47, 0x49, 0x46, 0x38, 0x39, 0x61] := by
  simp [gifStream, write_gif89a_header, u16le, List.take]

theorem gifStream_getLast (cube : QuantizedCubeData) (lf : Bool) :
    (gifStream cube lf).getLast? = some 0x3B := by
  have h : gifStream cube lf =
      (write_gif89a_header 81 81 ++ write_global_color_table cube.global_palette_rgb ++
        (if lf then write_netscape_loop else []) ++ frame_blocks cube.indexed_frames) ++
        [0x3B] := by
    simp [gifStream, List.append_assoc]
  rw [h, List.getLast?_concat]

/-! ### Counting the image-separator byte `0x2C` -/

theorem lzw_section_count_44 (f : List ℕ) (hf : (44 : ℕ) ∉ f) (hlen : f.length = 6561) :
    (write_lzw_compressed_data f).count 44 = 0 := by
  rw [List.count_eq_zero]
  apply lzw_section_not_mem 44 f hf (by omega)
  · rw [hlen]
    decide
  · omega
  · omega
  · omega

theorem frame_blocks_count_44 (frames : List (List ℕ))
    (h : ∀ f ∈ frames, f.length = 6561 ∧ (44 : ℕ) ∉ f) :
    (frame_blocks frames).count 44 = frames.length := by
  induction frames with
  | nil => simp [frame_blocks]
  | cons f fs ih =>
    have hdesc : (write_image_descriptor 0 0 81 81).count 44 = 1 := by decide
    have hf := h f (by simp)
    simp only [frame_blocks, List.map_cons, List.flatten_cons, List.count_append, hdesc,
      lzw_section_count_44 f hf.2 hf.1, List.length_cons]
    have := ih (fun g hg => h g (List.mem_cons_of_mem _ hg))
    simp only [frame_blocks] at this
    omega

theorem gifStream_count_44 (cube : QuantizedCubeData) (lf : Bool)
    (hp : (44 : ℕ) ∉ cube.global_palette_rgb)
    (h : ∀ f ∈ cube.indexed_frames, f.length = 6561 ∧ (44 : ℕ) ∉ f) :
    (gifStream cube lf).count 44 = cube.indexed_frames.length := by
  have hhead : (write_gif89a_header 81 81).count 44 = 0 := by decide
  have hns : (write_netscape_loop).count 44 = 0 := by decide
  have hgct : (write_global_color_table cube.global_palette_rgb).count 44 = 0 := by
    simp only [write_global_color_table, List.count_append]
    rw [List.count_eq_zero.2 hp]
    by_cases hc : cube.global_palette_rgb.length / 3 < 256
    · simp [hc, List.count_replicate]
    · simp [hc]
  have hloop : (if lf then write_netscape_loop else []).count 44 = 0 := by
    cases lf with
    | false => simp
    | true => simpa using hns
  simp only [gifStream, List.count_append, hhead, hgct, hloop,
    frame_blocks_count_44 cube.indexed_frames h]
  simp

/-! ### Validator characterisation -/

theorem validate_is_valid_eq (S : List ℕ) (h13 : 13 ≤ S.length) :
    (validate_gif_bytes S).is_valid =
      (decide (S.take 6 = [0x47, 0x49, 0x46, 0x38, 0x39, 0x61]) &&
        hasWindow netscape_pattern S &&
        decide (S.getLast? = some 0x3B) && decide (S.count 0x2C = 81)) := by
  rw [validate_gif_bytes, if_neg (by omega)]

theorem validate_frame_count_eq (S : List ℕ) (h13 : 13 ≤ S.length) :
    (validate_gif_bytes S).frame_count = S.count 0x2C := by
  rw [validate_gif_bytes, if_neg (by omega)]

/-! ### Encoder success path -/

theorem encode_ok (cube : QuantizedCubeData) (fps : ℕ) (lf : Bool)
    (hn : cube.indexed_frames.length = 81)
    (hp3 : cube.global_palette_rgb.length % 3 = 0)
    (hp768 : cube.global_palette_rgb.length ≤ 768) :
    encode_from_cube_data cube fps lf = Except.ok (gifStream cube lf) := by
  rw [encode_from_cube_data, if_neg (by omega), if_neg (by
    push_neg
    exact ⟨hp3, by omega⟩)]

theorem u16le_0 : u16le 0 = [0, 0] := by norm_num [u16le]

theorem gifStream_netscape_shape (cube : QuantizedCubeData) :
    gifStream cube true =
      (write_gif89a_header 81 81 ++ write_global_color_table cube.global_palette_rgb ++
        [0x21, 0xFF, 0x0B]) ++ netscape_pattern ++
      ([0x03, 0x01, 0x00, 0x00, 0x00] ++ frame_blocks cube.indexed_frames ++ [0x3B]) := by
  simp [gifStream, write_netscape_loop, u16le_0, List.append_assoc]

/-! ### Facts about the concrete witness cube `cubeW2` -/

theorem cubeW2_frames_length : cubeW2.indexed_frames.length = 81 := by
  rw [show cubeW2.indexed_frames = List.replicate 81 (List.replicate 6561 0) from rfl,
    List.length_replicate]

theorem cubeW2_palette : cubeW2.global_palette_rgb = [0, 0, 0] := rfl

theorem cubeW2_frames_hyp (b : ℕ) (hb : b ≠ 0) :
    ∀ f ∈ cubeW2.indexed_frames, f.length = 6561 ∧ b ∉ f := by
  intro f hfm
  rw [show cubeW2.indexed_frames = List.replicate 81 (List.replicate 6561 0) from rfl] at hfm
  have hfe := List.eq_of_mem_replicate hfm
  subst hfe
  refine ⟨by rw [List.length_replicate], ?_⟩
  intro h
  exact hb (List.eq_of_mem_replicate h)

/-! ### Claim theorems about the encoder and validator -/

/-- Claim C2, counterexample: `cubeC2` is accepted by the encoder with
`loop_forever = false`, yet validating the returned byte vector yields
`is_valid = false` (the validator requires the NETSCAPE2.0 extension, which is
only written when looping). -/
theorem c2_counterexample :
    encode_from_cube_data cubeC2 4 false = Except.ok (gifStream cubeC2 false) ∧
    (validate_gif_bytes (gifStream cubeC2 false)).is_valid = false := by
  refine ⟨rfl, ?_⟩
  rw [validate_is_valid_eq _ (gifStream_length cubeC2 false)]
  rw [hasWindow_eq_false _ (by decide)]
  simp

/-- Claim C2, amended: when `loop_forever = true`, the frames have the nominal
6561 pixels, and neither the palette bytes nor the index bytes contain the
image-separator byte `0x2C`, a successful encode validates with
`is_valid = true` and `frame_count ≥ 81`. -/
theorem c2_validate_encode (cube : QuantizedCubeData) (fps : ℕ)
    (hn : cube.indexed_frames.length = 81)
    (hf : ∀ f ∈ cube.indexed_frames, f.length = 6561 ∧ (44 : ℕ) ∉ f)
    (hp3 : cube.global_palette_rgb.length % 3 = 0)
    (hp768 : cube.global_palette_rgb.length ≤ 768)
    (hp44 : (44 : ℕ) ∉ cube.global_palette_rgb) :
    encode_from_cube_data cube fps true = Except.ok (gifStream cube true) ∧
    (validate_gif_bytes (gifStream cube true)).is_valid = true ∧
    81 ≤ (validate_gif_bytes (gifStream cube true)).frame_count := by
  refine ⟨encode_ok cube fps true hn hp3 hp768, ?_, ?_⟩
  · rw [validate_is_valid_eq _ (gifStream_length cube true)]
    rw [gifStream_take_6, gifStream_getLast, gifStream_count_44 cube true hp44 hf, hn]
    rw [gifStream_netscape_shape, hasWindow_of_parts]
    simp
  · rw [validate_frame_count_eq _ (gifStream_length cube true)]
    rw [gifStream_count_44 cube true hp44 hf, hn]

/-- Witness for the amended claim C2, at 81 all-zero 6561-pixel frames. -/
theorem c2_validate_encode_witness :
    cubeW2.indexed_frames.length = 81 ∧
    (encode_from_cube_data cubeW2 4 true = Except.ok (gifStream cubeW2 true) ∧
      (validate_gif_bytes (gifStream cubeW2 true)).is_valid = true ∧
      81 ≤ (validate_gif_bytes (gifStream cubeW2 true)).frame_count) := by
  exact ⟨cubeW2_frames_length, c2_validate_encode cubeW2 4 cubeW2_frames_length
    (cubeW2_frames_hyp 44 (by omega)) (by rw [cubeW2_palette]; decide)
    (by rw [cubeW2_palette]; decide) (by rw [cubeW2_palette]; decide)⟩

/-- Claim C3, counterexample: `cubeC3` has 81 frames, a valid 1-entry palette,
and its first frame holds the out-of-range index 5; the encoder succeeds
instead of failing with an index error. -/
theorem c3_counterexample :
    cubeC3.global_palette_rgb = [0, 0, 0] ∧
    (cubeC3.indexed_frames.getD 0 []).getD 0 0 = 5 ∧
    encode_from_cube_data cubeC3 4 false = Except.ok (gifStream cubeC3 false) :=
  ⟨rfl, rfl, rfl⟩

/-- Claim C3, amended: `encode_from_cube_data` performs no per-index
validation at all — it succeeds on every cube with 81 frames and a palette
byte count that is a multiple of 3 and at most 768, whatever the index
values. -/
theorem c3_no_index_validation (cube : QuantizedCubeData) (fps : ℕ) (lf : Bool)
    (hn : cube.indexed_frames.length = 81)
    (hp3 : cube.global_palette_rgb.length % 3 = 0)
    (hp768 : cube.global_palette_rgb.length ≤ 768) :
    encode_from_cube_data cube fps lf = Except.ok (gifStream cube lf) :=
  encode_ok cube fps lf hn hp3 hp768

/-- Witness for the amended claim C3: a cube whose indices 9 and 7 all exceed
its single palette entry is encoded successfully. -/
theorem c3_no_index_validation_witness :
    cubeW3.indexed_frames.length = 81 ∧
    encode_from_cube_data cubeW3 4 true = Except.ok (gifStream cubeW3 true) :=
  ⟨by simp [cubeW3, mkCube], c3_no_index_validation cubeW3 4 true (by simp [cubeW3, mkCube])
    (by simp [cubeW3, mkCube]) (by simp [cubeW3, mkCube])⟩

/-- Claim C4, counterexample: a cube with an empty palette (byte length 0) is
accepted by `encode_from_cube_data`, not rejected. -/
theorem c4_counterexample :
    cubeC4.global_palette_rgb.length = 0 ∧
    encode_from_cube_data cubeC4 4 false = Except.ok (gifStream cubeC4 false) :=
  ⟨rfl, rfl⟩

/-- Claim C4, amended: given 81 frames, the encoder fails with the palette
size error exactly when the palette byte count is not a multiple of 3 or
exceeds 768; byte length 0 passes the check. -/
theorem c4_palette_size_check (cube : QuantizedCubeData) (fps : ℕ) (lf : Bool)
    (hn : cube.indexed_frames.length = 81) :
    (encode_from_cube_data cube fps lf =
      Except.error (GifPipeError.validationFailed ("Invalid palette size"))) ↔
    (cube.global_palette_rgb.length % 3 ≠ 0 ∨ 768 < cube.global_palette_rgb.length) := by
  rw [encode_from_cube_data, if_neg (by omega)]
  by_cases hc : cube.global_palette_rgb.length % 3 ≠ 0 ∨ cube.global_palette_rgb.length > 768
  · rw [if_pos hc]
    simpa using hc
  · rw [if_neg hc]
    constructor
    · intro h
      exact absurd h (by simp)
    · intro h
      exact absurd h (by simpa using hc)

/-- Witness for the amended claim C4: a 769-byte palette is rejected with the
palette size error. -/
theorem c4_palette_size_check_witness :
    cubeW4.indexed_frames.length = 81 ∧
    ((encode_from_cube_data cubeW4 4 false =
      Except.error (GifPipeError.validationFailed ("Invalid palette size"))) ↔
    (cubeW4.global_palette_rgb.length % 3 ≠ 0 ∨ 768 < cubeW4.global_palette_rgb.length)) :=
  ⟨by simp [cubeW4, mkCube], c4_palette_size_check cubeW4 4 false (by simp [cubeW4, mkCube])⟩

/-- Claim C5, counterexample: a successful encode whose output contains no
byte `0xF9` anywhere — so no frame block can begin with the graphic control
extension `0x21 0xF9 0x04`. -/
theorem c5_counterexample :
    encode_from_cube_data cubeC5 4 false = Except.ok (gifStream cubeC5 false) ∧
    (0xF9 : ℕ) ∉ gifStream cubeC5 false :=
  ⟨rfl, by decide⟩

/-- Claim C5, amended: `encode_from_cube_data` emits no graphic control
extension at all; whenever neither the palette nor the 6561-pixel index
planes contain the byte `0xF9`, that byte does not occur anywhere in the
output, and each per-frame block starts directly with the image descriptor. -/
theorem c5_no_graphic_control (cube : QuantizedCubeData) (fps : ℕ) (lf : Bool)
    (hn : cube.indexed_frames.length = 81)
    (hf : ∀ f ∈ cube.indexed_frames, f.length = 6561 ∧ (249 : ℕ) ∉ f)
    (hp3 : cube.global_palette_rgb.length % 3 = 0)
    (hp768 : cube.global_palette_rgb.length ≤ 768)
    (hp249 : (249 : ℕ) ∉ cube.global_palette_rgb) :
    encode_from_cube_data cube fps lf = Except.ok (gifStream cube lf) ∧
    (0xF9 : ℕ) ∉ gifStream cube lf := by
  refine ⟨encode_ok cube fps lf hn hp3 hp768, ?_⟩
  apply gifStream_not_mem cube lf 249 (by decide) (fun _ => by decide) hp249 (by omega)
    (by decide) ?_ (by omega)
  intro f hfm
  exact lzw_section_not_mem 249 f (hf f hfm).2 (by omega)
    (by rw [(hf f hfm).1]; decide) (by omega) (by omega) (by omega)

/-- Witness for the amended claim C5. -/
theorem c5_no_graphic_control_witness :
    cubeW2.indexed_frames.length = 81 ∧
    (encode_from_cube_data cubeW2 9 false = Except.ok (gifStream cubeW2 false) ∧
      (0xF9 : ℕ) ∉ gifStream cubeW2 false) := by
  exact ⟨cubeW2_frames_length, c5_no_graphic_control cubeW2 9 false cubeW2_frames_length
    (cubeW2_frames_hyp 249 (by omega)) (by rw [cubeW2_palette]; decide)
    (by rw [cubeW2_palette]; decide) (by rw [cubeW2_palette]; decide)⟩

/-- Claim C6, counterexample: with `loop_forever = false` and a palette whose
bytes spell `NETSCAPE2.0`, the output contains the substring although no loop
extension was requested. -/
theorem c6_counterexample :
    encode_from_cube_data cubeC6 4 false = Except.ok (gifStream cubeC6 false) ∧
    hasWindow netscape_pattern (gifStream cubeC6 false) = true :=
  ⟨rfl, by decide⟩

/-- Claim C6, amended: for cubes whose palette and 6561-pixel index planes
avoid the byte `0x4E` (ASCII `N`), the encoder output contains the
`NETSCAPE2.0` pattern iff `loop_forever` was true. -/
theorem c6_netscape_iff (cube : QuantizedCubeData) (fps : ℕ) (lf : Bool)
    (hn : cube.indexed_frames.length = 81)
    (hf : ∀ f ∈ cube.indexed_frames, f.length = 6561 ∧ (78 : ℕ) ∉ f)
    (hp3 : cube.global_palette_rgb.length % 3 = 0)
    (hp768 : cube.global_palette_rgb.length ≤ 768)
    (hp78 : (78 : ℕ) ∉ cube.global_palette_rgb) :
    encode_from_cube_data cube fps lf = Except.ok (gifStream cube lf) ∧
    hasWindow netscape_pattern (gifStream cube lf) = lf := by
  refine ⟨encode_ok cube fps lf hn hp3 hp768, ?_⟩
  cases lf with
  | true =>
    rw [gifStream_netscape_shape, hasWindow_of_parts]
  | false =>
    apply hasWindow_eq_false
    apply gifStream_not_mem cube false 78 (by decide) (by simp) hp78 (by omega)
      (by decide) ?_ (by omega)
    intro f hfm
    exact lzw_section_not_mem 78 f (hf f hfm).2 (by omega)
      (by rw [(hf f hfm).1]; decide) (by omega) (by omega) (by omega)

/-- Witness for the amended claim C6, in the `loop_forever = true` case. -/
theorem c6_netscape_iff_witness :
    cubeW2.indexed_frames.length = 81 ∧
    (encode_from_cube_data cubeW2 4 true = Except.ok (gifStream cubeW2 true) ∧
      hasWindow netscape_pattern (gifStream cubeW2 true) = true) := by
  exact ⟨cubeW2_frames_length, c6_netscape_iff cubeW2 4 true cubeW2_frames_length
    (cubeW2_frames_hyp 78 (by omega)) (by rw [cubeW2_palette]; decide)
    (by rw [cubeW2_palette]; decide) (by rw [cubeW2_palette]; decide)⟩

/-- Claim C10: the encoder output depends only on the palette, the index
planes and the loop flag — two cubes agreeing on width, height,
`global_palette_rgb` and `indexed_frames` encode to the same result for the
same `loop_forever`, whatever their delays, metrics, attention maps and the
`fps_cs` argument. -/
theorem c10_output_independent (cube1 cube2 : QuantizedCubeData) (fps1 fps2 : ℕ) (lf : Bool)
    (hw : cube1.width = cube2.width) (hh : cube1.height = cube2.height)
    (hp : cube1.global_palette_rgb = cube2.global_palette_rgb)
    (hfr : cube1.indexed_frames = cube2.indexed_frames) :
    encode_from_cube_data cube1 fps1 lf = encode_from_cube_data cube2 fps2 lf := by
  simp only [encode_from_cube_data, gifStream, hp, hfr]

/-- Witness for claim C10: two cubes differing in delays, metrics, attention
maps, and encoded with different `fps_cs`, give identical byte vectors. -/
theorem c10_output_independent_witness :
    cubeA10.delays_cs ≠ cubeB10.delays_cs ∧
    encode_from_cube_data cubeA10 4 true = encode_from_cube_data cubeB10 9 true :=
  ⟨by decide, c10_output_independent cubeA10 cubeB10 4 9 true rfl rfl rfl rfl⟩

/-! ### Palette mapping: index bounds (claim C9) -/

theorem argminAux_lt :
    ∀ (rest : List ℚ) (i best_idx : ℕ) (best_val : ℚ), best_idx < i →
      argminAux rest i best_idx best_val < i + rest.length := by
  intro rest
  induction rest with
  | nil =>
    intro i bi bv h
    simpa [argminAux] using h
  | cons d t ih =>
    intro i bi bv h
    simp only [argminAux, List.length_cons]
    by_cases hd : d < bv
    · rw [if_pos hd]
      have := ih (i + 1) i d (by omega)
      omega
    · rw [if_neg hd]
      have := ih (i + 1) bi bv (by omega)
      omega

theorem argminFirst_lt (ds : List ℚ) (h : ds ≠ []) : argminFirst ds < ds.length := by
  cases ds with
  | nil => exact absurd rfl h
  | cons d rest =>
    simp only [argminFirst, List.length_cons]
    have := argminAux_lt rest 1 0 d (by omega)
    omega

/-- Claim C9: every index written by `map_frame_to_palette` is strictly below
the number of palette entries — the nearest-entry search returns a position
in the palette, and the `u8` truncation only ever shrinks it. -/
theorem c9_indices_in_range {α : Type} (toLab : ℕ × ℕ × ℕ → α) (dE : α → α → ℚ)
    (frame_rgb : List ℕ) (palette : List (ℕ × ℕ × ℕ))
    (hp : palette ≠ []) (h3 : frame_rgb.length % 3 = 0) :
    map_frame_to_palette toLab dE frame_rgb palette =
      Except.ok (mf_indices toLab dE frame_rgb palette, mf_error toLab dE frame_rgb palette) ∧
    (mf_indices toLab dE frame_rgb palette).all (fun i => decide (i < palette.length)) = true := by
  constructor
  · rw [map_frame_to_palette, if_neg (by omega)]
  · rw [List.all_eq_true]
    intro x hx
    simp only [mf_indices, List.mem_map] at hx
    obtain ⟨px, hpx, rfl⟩ := hx
    rw [decide_eq_true_eq]
    have hne : (palette.map toLab).map (fun c => dE (toLab px) c) ≠ [] := by
      intro hq
      apply hp
      have := congrArg List.length hq
      simpa [List.length_eq_zero] using this
    have hlt := argminFirst_lt _ hne
    have hlen : ((palette.map toLab).map (fun c => dE (toLab px) c)).length = palette.length := by
      rw [List.length_map, List.length_map]
    rw [hlen] at hlt
    have := Nat.mod_le (argminFirst ((palette.map toLab).map (fun c => dE (toLab px) c))) 256
    omega

/-- Witness for claim C9 at a two-entry palette and a two-pixel frame, with a
toy colour space. -/
theorem c9_indices_in_range_witness :
    palW9 ≠ [] ∧ frameW9.length % 3 = 0 ∧
    (map_frame_to_palette labW9 dEW9 frameW9 palW9 =
      Except.ok (mf_indices labW9 dEW9 frameW9 palW9, mf_error labW9 dEW9 frameW9 palW9) ∧
    (mf_indices labW9 dEW9 frameW9 palW9).all (fun i => decide (i < palW9.length)) = true) :=
  ⟨by decide, by decide, c9_indices_in_range labW9 dEW9 frameW9 palW9 (by decide) (by decide)⟩

/-! ### Histogram lemmas (claim C8) -/

theorem sum_map_add_nat (l : List ℕ) (f g : ℕ → ℕ) :
    (l.map (fun k => f k + g k)).sum = (l.map f).sum + (l.map g).sum := by
  induction l with
  | nil => simp
  | cons x t ih =>
    simp only [List.map_cons, List.sum_cons, ih]
    omega

theorem sum_map_indicator (l : List ℕ) (x : ℕ) :
    (l.map (fun k => if k = x then 1 else 0)).sum = l.count x := by
  induction l with
  | nil => simp
  | cons y t ih =>
    by_cases h : y = x
    · subst h
      simp only [List.map_cons, List.sum_cons, ih, List.count_cons, beq_iff_eq, if_pos rfl]
      omega
    · simp only [List.map_cons, List.sum_cons, ih, List.count_cons, beq_iff_eq, if_neg h]
      omega

theorem count_range_eq_one (x n : ℕ) (h : x < n) : (List.range n).count x = 1 := by
  have hmem : x ∈ List.range n := List.mem_range.2 h
  exact List.count_eq_one_of_mem (List.nodup_range n) hmem

theorem hist_step_getD (h : List ℕ) (idx k : ℕ) (hidx : idx < h.length) :
    (h.set idx (h.getD idx 0 + 1)).getD k 0 = h.getD k 0 + (if k = idx then 1 else 0) := by
  by_cases hk : k = idx
  · subst hk
    simp [List.getD_eq_getElem?_getD, List.getElem?_set_self hidx]
  · simp [List.getD_eq_getElem?_getD, List.getElem?_set_ne (Ne.symm hk), hk]

theorem foldl_hist_general :
    ∀ (p : List ℕ) (h : List ℕ), h.length = 256 → (∀ x ∈ p, x < 256) →
      p.foldl (fun histogram index => histogram.set index (histogram.getD index 0 + 1)) h =
      (List.range 256).map (fun k => h.getD k 0 + p.count k) := by
  intro p
  induction p with
  | nil =>
    intro h hlen _
    simp only [List.foldl_nil, List.count_nil]
    apply List.ext_getElem
    · simp [hlen]
    · intro i h1 h2
      have hi : i < 256 := by
        simpa [hlen] using h1
      simp [List.getElem_map, List.getElem_range, List.getD_eq_getElem?_getD,
        List.getElem?_eq_getElem h1]
  | cons x t ih =>
    intro h hlen hb
    have hx256 : x < 256 := hb x (by simp)
    simp only [List.foldl_cons]
    rw [ih _ (by rw [List.length_set]; exact hlen)
      (fun y hy => hb y (List.mem_cons_of_mem _ hy))]
    apply List.map_congr_left
    intro k hk
    rw [hist_step_getD h x k (by omega), List.count_cons]
    simp only [beq_iff_eq]
    by_cases hkx : k = x
    · subst hkx
      simp only [if_pos rfl]
      omega
    · rw [if_neg hkx, if_neg (fun hq => hkx hq.symm)]
      omega

theorem build_histogram_eq (p : List ℕ) (hp : ∀ x ∈ p, x < 256) :
    build_histogram p = histogram256 p := by
  rw [build_histogram, foldl_hist_general p (List.replicate 256 0) (by rw [List.length_replicate]) hp]
  unfold histogram256
  apply List.map_congr_left
  intro k hk
  have hzero : (List.replicate 256 (0 : ℕ)).getD k 0 = 0 := by
    rw [List.getD_eq_getElem?_getD, List.getElem?_replicate]
    split <;> rfl
  rw [hzero, Nat.zero_add]

theorem histogram256_sum (p : List ℕ) (hp : ∀ x ∈ p, x < 256) :
    (histogram256 p).sum = p.length := by
  induction p with
  | nil => simp [histogram256]
  | cons x t ih =>
    have hx : x < 256 := hp x (by simp)
    have ht := ih (fun y hy => hp y (List.mem_cons_of_mem _ hy))
    unfold histogram256 at ht ⊢
    rw [show ((List.range 256).map (fun k => (x :: t).count k)) =
        ((List.range 256).map (fun k => t.count k + (if k = x then 1 else 0))) from
      List.map_congr_left (fun k _ => by
        rw [List.count_cons]
        by_cases h : k = x
        · subst h
          simp
        · simp only [beq_iff_eq, if_neg (fun hq : x = k => h hq.symm), if_neg h])]
    rw [sum_map_add_nat, ht, sum_map_indicator, count_range_eq_one x 256 hx]
    simp

theorem histogram_similarity_spec (p1 p2 : List ℕ)
    (h1 : ∀ x ∈ p1, x < 256) (h2 : ∀ x ∈ p2, x < 256) (hne1 : p1 ≠ []) (hne2 : p2 ≠ []) :
    histogram_similarity (build_histogram p1) (build_histogram p2) =
      histogram_intersection_spec p1 p2 := by
  rw [build_histogram_eq p1 h1, build_histogram_eq p2 h2]
  have hguard : ¬((histogram256 p1).sum = 0 ∨ (histogram256 p2).sum = 0) := by
    push_neg
    constructor
    · rw [histogram256_sum p1 h1]
      simpa [List.length_eq_zero] using hne1
    · rw [histogram256_sum p2 h2]
      simpa [List.length_eq_zero] using hne2
  rw [histogram_similarity, histogram_intersection_spec, if_neg hguard]

theorem zip_min_sum_le :
    ∀ (hist1 hist2 : List ℕ), ((hist1.zip hist2).map (fun p => min p.1 p.2)).sum ≤ hist1.sum := by
  intro hist1
  induction hist1 with
  | nil =>
    intro hist2
    simp
  | cons x t ih =>
    intro hist2
    cases hist2 with
    | nil => simp
    | cons y u =>
      simp only [List.zip_cons_cons, List.map_cons, List.sum_cons]
      have h1 := ih u
      have h2 : min x y ≤ x := min_le_left _ _
      omega

theorem histogram_similarity_nonneg (hist1 hist2 : List ℕ) :
    0 ≤ histogram_similarity hist1 hist2 := by
  rw [histogram_similarity]
  split
  · exact le_refl 0
  · apply div_nonneg
    · exact Nat.cast_nonneg _
    · exact Nat.cast_nonneg _

theorem histogram_similarity_le_one (hist1 hist2 : List ℕ) :
    histogram_similarity hist1 hist2 ≤ 1 := by
  rw [histogram_similarity]
  split
  · exact zero_le_one
  · rename_i hc
    push_neg at hc
    rw [div_le_one (by
      have hpos : 0 < max hist1.sum hist2.sum := by omega
      exact_mod_cast hpos)]
    have hN : ((hist1.zip hist2).map (fun p => min p.1 p.2)).sum ≤ max hist1.sum hist2.sum :=
      le_trans (zip_min_sum_le hist1 hist2) (le_max_left _ _)
    exact_mod_cast hN

/-- Claim C8: for 81 index planes of bytes, `calculate_palette_stability` is
the arithmetic mean over the 80 consecutive pairs of the spec's
histogram-intersection similarity, and lies in `[0, 1]`. -/
theorem c8_palette_stability (frames : List (List ℕ)) (h81 : frames.length = 81)
    (hlt : ∀ f ∈ frames, ∀ x ∈ f, x < 256) (hne : ∀ f ∈ frames, f ≠ []) :
    calculate_palette_stability frames =
      ((frames.zip frames.tail).map (fun p => histogram_intersection_spec p.1 p.2)).sum / 80 ∧
    0 ≤ calculate_palette_stability frames ∧ calculate_palette_stability frames ≤ 1 := by
  have hzlen : (frames.zip frames.tail).length = 80 := by
    rw [List.length_zip, List.length_tail, h81]
    omega
  have hmap_eq : (frames.zip frames.tail).map
      (fun p => histogram_similarity (build_histogram p.1) (build_histogram p.2)) =
      (frames.zip frames.tail).map (fun p => histogram_intersection_spec p.1 p.2) := by
    apply List.map_congr_left
    intro p hp
    obtain ⟨a, b⟩ := p
    obtain ⟨ha, hb⟩ := List.of_mem_zip hp
    have hbf : b ∈ frames := List.mem_of_mem_tail hb
    exact histogram_similarity_spec a b (hlt a ha) (hlt b hbf) (hne a ha) (hne b hbf)
  have hdef : calculate_palette_stability frames =
      ((frames.zip frames.tail).map
        (fun p => histogram_similarity (build_histogram p.1) (build_histogram p.2))).sum / 80 := by
    rw [calculate_palette_stability]
    rw [List.length_map, hzlen]
    norm_num
  refine ⟨by rw [hdef, hmap_eq], ?_, ?_⟩
  · rw [hdef]
    apply div_nonneg ?_ (by norm_num)
    apply List.sum_nonneg
    intro q hq
    simp only [List.mem_map] at hq
    obtain ⟨p, hp, rfl⟩ := hq
    exact histogram_similarity_nonneg _ _
  · rw [hdef]
    rw [div_le_one (by norm_num)]
    have hb : ∀ q ∈ (frames.zip frames.tail).map
        (fun p => histogram_similarity (build_histogram p.1) (build_histogram p.2)), q ≤ 1 := by
      intro q hq
      simp only [List.mem_map] at hq
      obtain ⟨p, hp, rfl⟩ := hq
      exact histogram_similarity_le_one _ _
    have := List.sum_le_card_nsmul _ 1 hb
    rw [List.length_map, hzlen] at this
    simpa using this

/-- Witness for claim C8 at 81 one-pixel planes. -/
theorem c8_palette_stability_witness :
    framesW8.length = 81 ∧
    (calculate_palette_stability framesW8 =
      ((framesW8.zip framesW8.tail).map
        (fun p => histogram_intersection_spec p.1 p.2)).sum / 80 ∧
    0 ≤ calculate_palette_stability framesW8 ∧ calculate_palette_stability framesW8 ≤ 1) := by
  have hlen : framesW8.length = 81 := by
    rw [show framesW8 = List.replicate 81 [0] from rfl, List.length_replicate]
  refine ⟨hlen, c8_palette_stability framesW8 hlen ?_ ?_⟩
  · intro f hf x hx
    have hfe : f = [0] := List.eq_of_mem_replicate hf
    subst hfe
    simp only [List.mem_singleton] at hx
    omega
  · intro f hf
    have hfe : f = [0] := List.eq_of_mem_replicate hf
    subst hfe
    simp

/-! ### The emitted image data is not LZW (claim C1) -/

theorem length_u16le (n : ℕ) : (u16le n).length = 2 := rfl

theorem compressed255_getD_0 : compressed255.getD 0 0 = 0 := rfl

theorem compressed255_getD_1 : compressed255.getD 1 0 = 1 := rfl

theorem compressed255_getD_2 : compressed255.getD 2 0 = 255 := rfl

theorem compressed255_length : compressed255.length = 6565 := by
  show ((u16le 256 ++ List.replicate 6561 255) ++ u16le 257).length = 6565
  rw [List.length_append, List.length_append, List.length_replicate, length_u16le, length_u16le]

theorem readCode9_at_0 (bs : List ℕ) (h0 : bs.getD 0 0 = 0) (h1 : bs.getD 1 0 = 1) :
    readCode bs 0 9 = 256 := by
  rw [List.getD_eq_getElem?_getD] at h0 h1
  rw [readCode, show List.range 9 = [0, 1, 2, 3, 4, 5, 6, 7, 8] from rfl]
  simp only [List.foldl_cons, List.foldl_nil, getBit]
  norm_num [h0, h1]

theorem readCode9_at_9 (bs : List ℕ) (h1 : bs.getD 1 0 = 1) (h2 : bs.getD 2 0 = 255) :
    readCode bs 9 9 = 384 := by
  rw [List.getD_eq_getElem?_getD] at h1 h2
  rw [readCode, show List.range 9 = [0, 1, 2, 3, 4, 5, 6, 7, 8] from rfl]
  simp only [List.foldl_cons, List.foldl_nil, getBit]
  norm_num [h1, h2]

theorem lzwDecodeLoop_clear_step (bs : List ℕ) (nbits fuel pos width : ℕ)
    (extras : List (List ℕ)) (prev : Option (List ℕ)) (out : List ℕ)
    (hguard : ¬ nbits < pos + width) (hcode : readCode bs pos width = 256) :
    lzwDecodeLoop bs nbits (fuel + 1) pos width extras prev out =
      lzwDecodeLoop bs nbits fuel (pos + width) 9 [] none out := by
  simp [lzwDecodeLoop, hcode, hguard]

theorem lzwDecodeLoop_bad_first (bs : List ℕ) (nbits fuel pos width : ℕ) (out : List ℕ)
    (hguard : ¬ nbits < pos + width) (hcode : readCode bs pos width = 384) :
    lzwDecodeLoop bs nbits (fuel + 1) pos width [] none out =
      Except.error ("first code after a clear code is not a literal") := by
  simp [lzwDecodeLoop, hcode, hguard]

theorem lzw_two_codes_error (bs : List ℕ) (nbits fuel : ℕ)
    (hg : 18 ≤ nbits) (hc1 : readCode bs 0 9 = 256) (hc2 : readCode bs 9 9 = 384) :
    lzwDecodeLoop bs nbits (fuel + 2) 0 9 [] none [] =
      Except.error ("first code after a clear code is not a literal") := by
  rw [show fuel + 2 = (fuel + 1) + 1 from rfl]
  rw [lzwDecodeLoop_clear_step bs nbits (fuel + 1) 0 9 [] none [] (by omega) hc1]
  rw [show (0 + 9 : ℕ) = 9 from rfl]
  exact lzwDecodeLoop_bad_first bs nbits fuel 9 9 [] (by omega) hc2

theorem lzw_decode_spec_compressed255 :
    lzw_decode_spec compressed255 =
      Except.error ("first code after a clear code is not a literal") := by
  have hlen : compressed255.lengthTR = 6565 := by
    have h := compressed255_length
    rw [List.length_eq_lengthTR] at h
    exact h
  show lzwDecodeLoop compressed255 (8 * compressed255.lengthTR)
    (compressed255.lengthTR + 1) 0 9 [] none [] = _
  rw [hlen, show (6565 : ℕ) + 1 = 6564 + 2 from rfl]
  exact lzw_two_codes_error compressed255 (8 * 6565) 6564 (by norm_num)
    (readCode9_at_0 _ compressed255_getD_0 compressed255_getD_1)
    (readCode9_at_9 _ compressed255_getD_1 compressed255_getD_2)

/-- Claim C1, code-bug evidence: `write_lzw_compressed_data` on the all-255
frame emits the minimum code size byte 8 and the sub-block packing of the raw
payload `compressed255` (clear-code bytes, verbatim indices, end-code bytes);
unpacking the sub-blocks recovers that payload, and standard variable-width
GIF LZW decoding of it fails at the second code instead of yielding the
frame's 6561 bytes — the emitted section is not an LZW encoding. -/
theorem c1_lzw_stub_not_decodable :
    write_lzw_compressed_data frame255 = 8 :: (subBlocks compressed255 ++ [0]) ∧
    unpackSubBlocks (subBlocks compressed255 ++ [0]) = some compressed255 ∧
    lzw_decode_spec compressed255 =
      Except.error ("first code after a clear code is not a literal") ∧
    lzw_decode_spec compressed255 ≠ Except.ok frame255 := by
  refine ⟨?_, unpack_subBlocks compressed255, lzw_decode_spec_compressed255, ?_⟩
  · show [8] ++ subBlocks (u16le 256 ++ frame255 ++ u16le 257) ++ [0x00] =
      8 :: (subBlocks compressed255 ++ [0])
    rw [show u16le 256 ++ frame255 ++ u16le 257 = compressed255 from rfl]
    simp
  · rw [lzw_decode_spec_compressed255]
    simp

end RgbaGif
